import Mathlib

/-!
Shallow embedding of the scheduling and runtime-control core of the
OpenSprinklerGen2 interval_program sketch
(src/examples/interval_program/interval_program.ino).

Conventions of the embedding:
* C `unsigned long` (32-bit on AVR) values are modelled as `Nat`; wherever the
  C code performs arithmetic that can wrap (additions of epoch times, the
  fixed `- 60` subtraction on master stop times) the result is reduced
  `% U32` explicitly.  `ULONG_MAX` is `U32 - 1`.
* The per-board bit arrays (`station_bits`, `masop_bits`, `ignrain_bits`,
  `stndis_bits`) are modelled as per-station Boolean functions; the board
  grouping only matters for the per-board snapshots (`bitvalue`, `sbits`,
  `rbits`) which the loops read once per board, and those snapshots are
  modelled explicitly.
* `os.nstations = 8 * os.nboards` (hardware invariant of the library), so the
  station count is derived from `nboards`.
* Purely physical side effects (relay `digitalWrite`/`delay`, LCD,
  `apply_all_station_bits`) have no modelled state.  The SD-card log sink is
  modelled as a list of records appended by `write_log`;
  `pd.lastrun` is modelled as a field.
* External collaborators (`water_time_decode`, `prog.check_match`, the ping
  probe, `start_network`) live outside src/; they are passed in as
  parameters (a decode function, a per-program match Boolean, probe/reinit
  outcome Booleans), exactly as the spec's §6 interface list describes them.
-/

namespace OpenSprinkler

/-- The modulus of C `unsigned long` on the AVR target (32 bits). -/
def U32 : Nat := 4294967296

/-- The value of `ULONG_MAX` from `<limits.h>` on the target. -/
def ULONG_MAX : Nat := 4294967295

/-- One record of the station-run log (`pd.lastrun` fields written by
`turn_off_station` and emitted through `write_log(LOGDATA_STATION, ...)`). -/
structure LogRecord where
  program : Nat
  station : Nat
  duration : Nat
  endtime : Nat
deriving DecidableEq

/-- The scheduler-visible state: the per-station `ScheduleEntry` table
(`pd.scheduled_start_time`, `pd.scheduled_stop_time`,
`pd.scheduled_program_index`), the station output bits, the static per-station
attribute bits, the controller status fields and the option snapshot used by
the core. -/
structure SchedState where
  nboards : Nat
  start : Nat → Nat
  stop : Nat → Nat
  prog : Nat → Nat
  bits : Nat → Bool
  ignrain : Nat → Bool
  masop : Nat → Bool
  stndis : Nat → Bool
  mas : Nat
  seq : Bool
  enabled : Bool
  rainDelayed : Bool
  rainSensed : Bool
  useRainsensor : Bool
  programBusy : Bool
  masterOnAdj : Nat
  masterOffAdj : Nat
  optMas : Nat
  optSeq : Bool
  lastStopTime : Nat
  lastrun : LogRecord
  log : List LogRecord

/-- Station count: `os.nstations = 8 * os.nboards` in the library. -/
def SchedState.nstations (st : SchedState) : Nat := 8 * st.nboards

/-- Pointwise update of a `Nat`-valued station table. -/
def updN (f : Nat → Nat) (i v : Nat) : Nat → Nat := fun j => if j = i then v else f j

/-- Pointwise update of a Boolean station table. -/
def updB (f : Nat → Bool) (i : Nat) (v : Bool) : Nat → Bool := fun j => if j = i then v else f j

/-- The library call `os.set_station_bit(sid, v)`: set one station's output
bit in `station_bits`. -/
def set_station_bit (st : SchedState) (sid : Nat) (v : Bool) : SchedState :=
  { st with bits := updB st.bits sid v }

/-- The guard of the master stop-time retraction inside `turn_off_station`
(line 525): `(mas != sid+1) && (os.masop_bits[bid] & (1 << s)) && os.status.seq`.
Note that it does not require `mas > 0`. -/
def master_retract_guard (st : SchedState) (sid mas : Nat) : Bool :=
  decide (mas ≠ sid + 1) && st.masop sid && st.seq

/-- The array index of the master stop-time write in `turn_off_station`
(line 526) as C computes it: the `byte` argument `mas` is promoted to `int`
before the subtraction, so `mas - 1` is the signed value, `-1` when `mas = 0`. -/
def master_retract_index (mas : Nat) : Int := (mas : Int) - 1

/-- The function `turn_off_station(sid, mas, curr_time)` (lines 507-545):
clears the station's output bit, writes a `lastrun` record and a
`LOGDATA_STATION` log line when the station is not the master and
`curr_time > scheduled_start_time`, retracts the master's stop time to
`curr_time + OPTION_MASTER_OFF_ADJ - 60` under `master_retract_guard`, and
resets the station's `ScheduleEntry` to all-zero.  The relay branch only
drives a GPIO pin and has no modelled state.

The C master write indexes the table at `int` value `mas - 1`
(`master_retract_index mas`); this `Nat`-indexed model places it at
`mas - 1`, which agrees with the C code whenever `mas ≥ 1` (the `mas = 0`
case is out of the table's bounds in C and is analysed separately through
`master_retract_guard` and `master_retract_index`). -/
def turn_off_station (st : SchedState) (sid mas : Nat) (curr : Nat) : SchedState :=
  let st1 := set_station_bit st sid false
  let st2 :=
    if mas ≠ sid + 1 ∧ st1.start sid < curr then
      let rec0 : LogRecord :=
        { program := st1.prog sid, station := sid,
          duration := curr - st1.start sid, endtime := curr }
      { st1 with lastrun := rec0, log := st1.log ++ [rec0] }
    else st1
  let st3 :=
    if master_retract_guard st2 sid mas = true then
      { st2 with stop := updN st2.stop (mas - 1) ((curr + st2.masterOffAdj + (U32 - 60)) % U32) }
    else st2
  { st3 with
    start := updN st3.start sid 0,
    stop := updN st3.stop sid 0,
    prog := updN st3.prog sid 0 }

/-- One station's step of `process_dynamic_events` (lines 560-578).  `en` and
`rain` are computed once at entry of the function; `rbit` and `snapb` are the
station's bits from the per-board snapshots `rbits = os.ignrain_bits[bid]` and
`sbits = os.station_bits[bid]`; `mas` is `os.status.mas` read at the
`turn_off_station` call site. -/
def pde_station (en rain rbit snapb : Bool) (mas curr sid : Nat) (st : SchedState) : SchedState :=
  if st.prog sid < 99 ∧ (en = false ∨ (rain = true ∧ rbit = false)) then
    if snapb = true then
      turn_off_station st sid mas curr
    else if 0 < st.prog sid then
      { st with
        start := updN st.start sid 0,
        stop := updN st.stop sid 0,
        prog := updN st.prog sid 0 }
    else st
  else st

/-- One board of `process_dynamic_events`: the snapshots `rbits` and `sbits`
are read once at board entry, then stations `bid*8 + s`, `s = 0..7`, are
processed in order. -/
def pde_board (en rain : Bool) (curr bid : Nat) (st : SchedState) : SchedState :=
  let rsnap := st.ignrain
  let bsnap := st.bits
  (List.range 8).foldl
    (fun acc s =>
      pde_station en rain (rsnap (bid * 8 + s)) (bsnap (bid * 8 + s)) acc.mas curr (bid * 8 + s) acc)
    st

/-- The function `process_dynamic_events(curr_time)` (lines 547-581):
`rain = rain_delayed || (OPTION_USE_RAINSENSOR && rain_sensed)` and
`en = os.status.enabled` are computed once, then each board's stations are
processed. -/
def process_dynamic_events (st : SchedState) (curr : Nat) : SchedState :=
  let en := st.enabled
  let rain := st.rainDelayed || (st.useRainsensor && st.rainSensed)
  (List.range st.nboards).foldl (fun acc bid => pde_board en rain curr bid acc) st

/-- One station's pass of the runtime state machine inside the busy block of
`loop()` (lines 294-338): the turn-off check (`scheduled_program_index > 0`
and `curr_time >= scheduled_stop_time` calls `turn_off_station` with
`os.status.mas`); then, if the per-board snapshot `bitvalue` shows the
station off and `curr_time` lies in `[scheduled_start_time,
scheduled_stop_time)`, the station bit is set and, when a master is
configured (`mas > 0`), the station is not the master, its `masop` bit is set
and sequential mode is on, the master's `ScheduleEntry` is derived
(`start + OPTION_MASTER_ON_ADJ`, `stop + OPTION_MASTER_OFF_ADJ - 60`, same
program index) and the master bit is set at once if `curr_time` already lies
in the derived window.  The relay branch only drives a GPIO pin. -/
def runtime_station (snap : Nat → Bool) (curr sid : Nat) (st : SchedState) : SchedState :=
  let st1 := if 0 < st.prog sid ∧ st.stop sid ≤ curr then turn_off_station st sid st.mas curr else st
  if snap sid = false then
    if st1.start sid ≤ curr ∧ curr < st1.stop sid then
      let st2 := set_station_bit st1 sid true
      if 0 < st2.mas ∧ st2.mas ≠ sid + 1 ∧ st2.masop sid = true ∧ st2.seq = true then
        let m := st2.mas - 1
        let st4 := { st2 with
          start := updN st2.start m ((st2.start sid + st2.masterOnAdj) % U32),
          stop := updN st2.stop m ((st2.stop sid + st2.masterOffAdj + (U32 - 60)) % U32),
          prog := updN st2.prog m (st2.prog sid) }
        if st4.start m ≤ curr ∧ curr < st4.stop m then set_station_bit st4 m true else st4
      else st2
    else st1
  else st1

/-- One board of the runtime pass: `bitvalue = os.station_bits[bid]` is read
once at board entry and used for the "is this station currently off" test. -/
def runtime_board (curr bid : Nat) (st : SchedState) : SchedState :=
  let snap := st.bits
  (List.range 8).foldl (fun acc s => runtime_station snap curr (bid * 8 + s) acc) st

/-- The per-station portion of the busy block of `loop()` (lines 292-339). -/
def run_busy_pass (st : SchedState) (curr : Nat) : SchedState :=
  (List.range st.nboards).foldl (fun acc bid => runtime_board curr bid acc) st

/-- One station's step of the `last_stop_time` / `program_still_busy`
recomputation (lines 351-358): a station counts iff its stop time is non-zero
and below `ULONG_MAX`; the running maximum mirrors the C ternary. -/
def busy_scan_step (st : SchedState) (p : Nat × Bool) (sid : Nat) : Nat × Bool :=
  let sst := st.stop sid
  if 0 < sst ∧ sst < ULONG_MAX then (if p.1 < sst then sst else p.1, true) else p

/-- The tail of the busy block (lines 347-369): recompute `pd.last_stop_time`
and `program_still_busy` over all stations; if no station counts, clear all
station bits, clear `program_busy` and re-read `OPTION_MASTER_STATION` and
`OPTION_SEQUENTIAL` into the status. -/
def recompute_busy (st : SchedState) : SchedState :=
  let p := (List.range (8 * st.nboards)).foldl (busy_scan_step st) (0, false)
  let st1 := { st with lastStopTime := p.1 }
  if p.2 = false then
    { st1 with bits := fun _ => false, programBusy := false, mas := st1.optMas, seq := st1.optSeq }
  else st1

/-- The whole busy block of `loop()` (lines 291-370): guarded by
`os.status.program_busy`, it runs the per-station runtime pass, then
`process_dynamic_events`, then the busy recomputation.
(`os.apply_all_station_bits()` only drives hardware.) -/
def run_sched_tick (st : SchedState) (curr : Nat) : SchedState :=
  if st.programBusy = true then
    recompute_busy (process_dynamic_events (run_busy_pass st curr) curr)
  else st

/-- The initial value of `accumulate_time` in `schedule_all_stations`
(lines 585-591): `curr_time + 1`, replaced by `last_stop_time +
station_delay` when sequential mode is on and `last_stop_time > 0`.
`delay` is the externally decoded `water_time_decode(OPTION_STATION_DELAY_TIME)`. -/
def sas_init (st : SchedState) (curr : Nat) (seq : Bool) (delay : Nat) : Nat :=
  if seq = true ∧ 0 < st.lastStopTime then (st.lastStopTime + delay) % U32 else (curr + 1) % U32

/-- One station's step of `schedule_all_stations` (lines 599-627): skip the
master and any station with zero pending stop-duration, an already-set start
time, or a set output bit; otherwise in sequential mode assign
`start = cursor`, `stop = cursor + duration`, advance the cursor by the
duration plus `delay`; in parallel mode assign `start = cursor`,
`stop = cursor + duration` without advancing.  Every assignment sets
`program_busy`. -/
def sas_station (delay : Nat) (seq : Bool) (acc : SchedState × Nat) (sid : Nat) :
    SchedState × Nat :=
  let st := acc.1
  let cursor := acc.2
  if st.mas = sid + 1 then (st, cursor)
  else if st.stop sid = 0 ∨ st.start sid ≠ 0 ∨ st.bits sid = true then (st, cursor)
  else if seq = true then
    let c1 := (cursor + st.stop sid) % U32
    ({ st with
        start := updN st.start sid cursor,
        stop := updN st.stop sid c1,
        programBusy := true },
      (c1 + delay) % U32)
  else
    ({ st with
        start := updN st.start sid cursor,
        stop := updN st.stop sid ((cursor + st.stop sid) % U32),
        programBusy := true },
      cursor)

/-- The function `schedule_all_stations(curr_time, seq)` (lines 583-628). -/
def schedule_all_stations (st : SchedState) (curr : Nat) (seq : Bool) (delay : Nat) : SchedState :=
  ((List.range (8 * st.nboards)).foldl (sas_station delay seq) (st, sas_init st curr seq delay)).1

/-- One program as the core sees it: the externally resolved
`prog.check_match(curr_time)` Boolean and the (encoded) per-station durations. -/
structure ProgramRec where
  fires : Bool
  durations : Nat → Nat

/-- One station's step of the program matcher (lines 257-278): skip the
master, running and disabled stations; if the program's duration for the
station is non-zero and the station has no pending stop value, store
`water_time_decode(duration) * OPTION_WATER_PERCENTAGE / 100` (unsigned-long
product) in `scheduled_stop_time`, and when that scaled demand is non-zero
set `scheduled_program_index = pid + 1` and raise `match_found`. -/
def match_station (decode : Nat → Nat) (pct pid : Nat) (p : ProgramRec)
    (acc : SchedState × Bool) (sid : Nat) : SchedState × Bool :=
  let st := acc.1
  let found := acc.2
  if st.mas = sid + 1 ∨ st.bits sid = true ∨ st.stndis sid = true then (st, found)
  else if p.durations sid ≠ 0 ∧ st.stop sid = 0 then
    let d := decode (p.durations sid) * pct % U32 / 100
    let st1 := { st with stop := updN st.stop sid d }
    if d ≠ 0 then ({ st1 with prog := updN st1.prog sid (pid + 1) }, true)
    else (st1, found)
  else (st, found)

/-- The once-per-minute program matcher (lines 252-280): for each program
`(pid, p)` in order, if its match predicate fired, process every station.
Returns the state together with `match_found`. -/
def run_matcher (decode : Nat → Nat) (pct : Nat) (progs : List (Nat × ProgramRec))
    (st : SchedState) : SchedState × Bool :=
  progs.foldl
    (fun acc pr =>
      if pr.2.fires = true then
        (List.range (8 * acc.1.nboards)).foldl (match_station decode pct pr.1 pr.2) acc
      else acc)
    (st, false)

/-- The state of `check_network` (lines 457-505): `os.status.network_fails`,
the static locals `last_check_time` and `last_dhcp_time`, the busy flag and
the `OPTION_NETFAIL_RECONNECT` option. -/
structure NetState where
  networkFails : Nat
  lastCheckTime : Nat
  lastDhcpTime : Nat
  programBusy : Bool
  reconnectOpt : Bool
deriving DecidableEq

/-- The probe gate interval (lines 468-469):
`interval = (1 << network_fails) * CHECK_NETWORK_INTERVAL`. -/
def net_interval (fails : Nat) : Nat := 2 ^ fails * 30

/-- The function `check_network(curr_time)` (lines 457-505).  The ping
outcome and the `os.start_network` outcome are external and passed in as
`probeOk` and `reinitOk`.  Time is monotone, so the unsigned differences
`curr_time - last_check_time` and `curr_time - last_dhcp_time` are plain
`Nat` subtractions. -/
def check_network (st : NetState) (curr : Nat) (probeOk reinitOk : Bool) : NetState :=
  let st0 := if st.lastCheckTime = 0 then { st with lastCheckTime := curr, lastDhcpTime := curr }
             else st
  if st0.programBusy = true then st0
  else if net_interval st0.networkFails < curr - st0.lastCheckTime then
    let st1 := { st0 with lastCheckTime := curr }
    let st2 := if probeOk = true then { st1 with networkFails := 0 }
               else { st1 with networkFails := min (st1.networkFails + 1) 6 }
    if (2 < st2.networkFails ∨ 43200 < curr - st2.lastDhcpTime) ∧ st2.reconnectOpt = true then
      let st3 := { st2 with lastDhcpTime := curr }
      if reinitOk = true then { st3 with networkFails := 0 } else st3
    else st2
  else st0

/-! ## Example states used by the witnesses and counterexamples -/

/-- A one-board state with everything idle and the controller enabled. -/
def baseState : SchedState where
  nboards := 1
  start := fun _ => 0
  stop := fun _ => 0
  prog := fun _ => 0
  bits := fun _ => false
  ignrain := fun _ => false
  masop := fun _ => false
  stndis := fun _ => false
  mas := 0
  seq := true
  enabled := true
  rainDelayed := false
  rainSensed := false
  useRainsensor := false
  programBusy := false
  masterOnAdj := 0
  masterOffAdj := 0
  optMas := 0
  optSeq := true
  lastStopTime := 0
  lastrun := { program := 0, station := 0, duration := 0, endtime := 0 }
  log := []

/-- State for the C10 analysis: no master configured (`mas = 0`), sequential
mode, station 0 has its `masop` (trigger-master) bit set. -/
def c10state : SchedState :=
  { baseState with masop := fun j => decide (j = 0) }

/-- State for the C7 counterexample: master is station 2 (`mas = 2`),
station 0 triggers it, `OPTION_MASTER_OFF_ADJ = 10`. -/
def c7state : SchedState :=
  { baseState with mas := 2, masop := fun j => decide (j = 0), masterOffAdj := 10 }

/-- State for the C6 counterexamples: station 0 fully idle; master is
station 2 so station 0 is non-master; in the second state station 0
additionally has its trigger-master bit set and `OPTION_MASTER_OFF_ADJ = 70`. -/
def c6state : SchedState :=
  { baseState with mas := 2 }

/-- Second C6 counterexample state: as `c6state` but station 0 triggers the
master. -/
def c6stateB : SchedState :=
  { baseState with mas := 2, masop := fun j => decide (j = 0), masterOffAdj := 70 }

/-- State for the C3 witness: station 1 queued with window `[100, 700)`,
master is station 5 (`mas = 5`) with on-adjust 3 and off-adjust 70, station 1
triggers the master, sequential mode. -/
def c3state : SchedState :=
  { baseState with
    mas := 5
    masop := fun j => decide (j = 1)
    masterOnAdj := 3
    masterOffAdj := 70
    start := fun j => if j = 1 then 100 else 0
    stop := fun j => if j = 1 then 700 else 0
    prog := fun j => if j = 1 then 2 else 0
    programBusy := true }

/-- State for the C1 witness: controller disabled, station 3 queued for
program 2 with window `[50, 150)`. -/
def c1state : SchedState :=
  { baseState with
    enabled := false
    prog := fun j => if j = 3 then 2 else 0
    start := fun j => if j = 3 then 50 else 0
    stop := fun j => if j = 3 then 150 else 0
    programBusy := true }

/-- State for the C9 witness: three failures so far, monitor initialised,
idle controller, auto-reconnect off. -/
def c9net : NetState where
  networkFails := 3
  lastCheckTime := 100
  lastDhcpTime := 100
  programBusy := false
  reconnectOpt := false

/-- State for the C4 counterexample: one pending demand of 10 seconds at
station 0, `last_stop_time = 1` (a stale value in the past), controller busy. -/
def c4state : SchedState :=
  { baseState with
    stop := fun j => if j = 0 then 10 else 0
    lastStopTime := 1
    programBusy := true }

/-- State for the C5 scenario: scaled demands of 600 s recorded at stations
1 and 2 (duration 600 × waterPercentage 100 / 100), nothing else pending. -/
def c5state : SchedState :=
  { baseState with
    stop := fun j => if j = 1 ∨ j = 2 then 600 else 0
    programBusy := true }

/-- Intermediate state of the C5 scenario after station 1 is assigned. -/
def c5mid (T : Nat) : SchedState :=
  { c5state with
    start := updN c5state.start 1 (T + 1)
    stop := updN c5state.stop 1 (T + 601)
    programBusy := true }

/-- Final state of the C5 scenario after station 2 is assigned. -/
def c5fin (T : Nat) : SchedState :=
  { c5mid T with
    start := updN (c5mid T).start 2 (T + 606)
    stop := updN (c5mid T).stop 2 (T + 1206)
    programBusy := true }

/-- Programs for the C8 witness: one firing program wanting 7 (encoded)
seconds at station 2. -/
def matcherProgs : List (Nat × ProgramRec) :=
  [(0, { fires := true, durations := fun j => if j = 2 then 7 else 0 })]

/-- State for the C8 witness: station 2 is disabled. -/
def c8state : SchedState :=
  { baseState with stndis := fun j => decide (j = 2) }

/-- C2 counterexample state: master is station 1 (`mas = 1`), the subordinate
station 1 is queued for program 1 with window `[5, 8)` whose stop has already
elapsed (the station never actually turned on), `OPTION_MASTER_OFF_ADJ = 55`,
controller enabled and busy. -/
def c2state : SchedState :=
  { baseState with
    mas := 1
    optMas := 1
    masop := fun j => decide (j = 1)
    masterOffAdj := 55
    start := fun j => if j = 1 then 5 else 0
    stop := fun j => if j = 1 then 8 else 0
    prog := fun j => if j = 1 then 1 else 0
    programBusy := true
    lastStopTime := 8 }

/-- C2 witness state: station 0 running program 1 with window `[20, 100)`,
controller busy. -/
def c2wstate : SchedState :=
  { baseState with
    start := fun j => if j = 0 then 20 else 0
    stop := fun j => if j = 0 then 100 else 0
    prog := fun j => if j = 0 then 1 else 0
    bits := fun j => decide (j = 0)
    programBusy := true
    lastStopTime := 100 }

/-! ## Basic lemmas about table updates and `turn_off_station` -/

theorem updN_at (f : Nat → Nat) (i v : Nat) : updN f i v i = v := by
  simp [updN]

theorem updN_ne (f : Nat → Nat) (i v j : Nat) (h : j ≠ i) : updN f i v j = f j := by
  simp [updN, h]

theorem updN_eq_self (f : Nat → Nat) (i v : Nat) (h : f i = v) : updN f i v = f := by
  funext j
  by_cases hj : j = i
  · simp [updN, hj, h]
  · simp [updN, hj]

theorem updB_at (f : Nat → Bool) (i : Nat) (v : Bool) : updB f i v i = v := by
  simp [updB]

theorem updB_ne (f : Nat → Bool) (i : Nat) (v : Bool) (j : Nat) (h : j ≠ i) :
    updB f i v j = f j := by
  simp [updB, h]

theorem updB_eq_self (f : Nat → Bool) (i : Nat) (v : Bool) (h : f i = v) : updB f i v = f := by
  funext j
  by_cases hj : j = i
  · simp [updB, hj, h]
  · simp [updB, hj]

theorem mod_sub_sixty (x : Nat) (h1 : 60 ≤ x) (h2 : x - 60 < U32) :
    (x + (U32 - 60)) % U32 = x - 60 := by
  have hx : x + (U32 - 60) = (x - 60) + U32 := by
    simp only [U32] at *
    omega
  rw [hx, Nat.add_mod_right, Nat.mod_eq_of_lt h2]

theorem turn_off_station_frame (st : SchedState) (sid mas curr : Nat) :
    (turn_off_station st sid mas curr).nboards = st.nboards ∧
    (turn_off_station st sid mas curr).mas = st.mas ∧
    (turn_off_station st sid mas curr).seq = st.seq ∧
    (turn_off_station st sid mas curr).enabled = st.enabled ∧
    (turn_off_station st sid mas curr).rainDelayed = st.rainDelayed ∧
    (turn_off_station st sid mas curr).rainSensed = st.rainSensed ∧
    (turn_off_station st sid mas curr).useRainsensor = st.useRainsensor ∧
    (turn_off_station st sid mas curr).programBusy = st.programBusy ∧
    (turn_off_station st sid mas curr).ignrain = st.ignrain ∧
    (turn_off_station st sid mas curr).masop = st.masop ∧
    (turn_off_station st sid mas curr).stndis = st.stndis ∧
    (turn_off_station st sid mas curr).masterOnAdj = st.masterOnAdj ∧
    (turn_off_station st sid mas curr).masterOffAdj = st.masterOffAdj ∧
    (turn_off_station st sid mas curr).optMas = st.optMas ∧
    (turn_off_station st sid mas curr).optSeq = st.optSeq ∧
    (turn_off_station st sid mas curr).lastStopTime = st.lastStopTime := by
  unfold turn_off_station set_station_bit
  dsimp only
  split <;> split <;> simp

theorem turn_off_station_bits_self (st : SchedState) (sid mas curr : Nat) :
    (turn_off_station st sid mas curr).bits sid = false := by
  unfold turn_off_station set_station_bit
  dsimp only
  split <;> split <;> simp [updB]

theorem turn_off_station_bits_other (st : SchedState) (sid mas curr j : Nat) (h : j ≠ sid) :
    (turn_off_station st sid mas curr).bits j = st.bits j := by
  unfold turn_off_station set_station_bit
  dsimp only
  split <;> split <;> simp [updB, h]

theorem turn_off_station_prog_self (st : SchedState) (sid mas curr : Nat) :
    (turn_off_station st sid mas curr).prog sid = 0 := by
  unfold turn_off_station set_station_bit
  dsimp only
  split <;> split <;> simp [updN]

theorem turn_off_station_prog_other (st : SchedState) (sid mas curr j : Nat) (h : j ≠ sid) :
    (turn_off_station st sid mas curr).prog j = st.prog j := by
  unfold turn_off_station set_station_bit
  dsimp only
  split <;> split <;> simp [updN, h]

theorem turn_off_station_start_other (st : SchedState) (sid mas curr j : Nat) (h : j ≠ sid) :
    (turn_off_station st sid mas curr).start j = st.start j := by
  unfold turn_off_station set_station_bit
  dsimp only
  split <;> split <;> simp [updN, h]

theorem turn_off_station_stop_master (st : SchedState) (sid mas curr : Nat)
    (hguard : master_retract_guard st sid mas = true) (hne : mas - 1 ≠ sid) :
    (turn_off_station st sid mas curr).stop (mas - 1) =
      (curr + st.masterOffAdj + (U32 - 60)) % U32 := by
  unfold turn_off_station set_station_bit master_retract_guard
  unfold master_retract_guard at hguard
  dsimp only
  split <;> simp_all [updN, hne]

/-! ## C10 -/

/-- C10: the master stop-time write in `turn_off_station` is not guarded by
`mas > 0`: with no master configured (`mas = 0`), a station whose
trigger-master bit is set in sequential mode still satisfies
`master_retract_guard`, and the C write index `mas - 1` (computed in `int`
after byte promotion) is `-1`, which is not any valid station index of the
table.  This refutes the claimed in-bounds property and exhibits the
out-of-bounds write input. -/
theorem master_retract_oob_guard :
    master_retract_guard c10state 0 0 = true ∧
    c10state.mas = 0 ∧
    master_retract_index 0 = -1 ∧
    ∀ sid < 8 * c10state.nboards, master_retract_index 0 ≠ (sid : Int) := by
  decide

/-! ## C7 -/

/-- C7 counterexample: turning off station 0 (which triggers master station 2
in sequential mode, `OPTION_MASTER_OFF_ADJ = 10`) at time 1000 retracts the
master's stop time to 950 = 1000 + 10 − 60, not to 1010 = curr_time +
offAdjust as the claim states. -/
theorem master_retract_without_sixty_cex :
    (turn_off_station c7state 0 2 1000).stop 1 = 950 ∧
    950 ≠ 1000 + c7state.masterOffAdj := by
  decide

/-- C7 (amended): when `turn_off_station` runs on a non-master station whose
trigger-master bit is set while sequential mode is active and a master is
configured, the master's stop time is retracted to
`curr_time + OPTION_MASTER_OFF_ADJ − 60` (the same fixed 60-second deduction
as the derivation path), truncating an already-running master early. -/
theorem master_retract_value (st : SchedState) (sid mas curr : Nat)
    (hmas : mas ≠ sid + 1) (hm1 : 1 ≤ mas)
    (hmasop : st.masop sid = true) (hseq : st.seq = true)
    (h60 : 60 ≤ curr + st.masterOffAdj) (hlt : curr + st.masterOffAdj - 60 < U32) :
    (turn_off_station st sid mas curr).stop (mas - 1) = curr + st.masterOffAdj - 60 := by
  have hne : mas - 1 ≠ sid := by omega
  have hguard : master_retract_guard st sid mas = true := by
    simp [master_retract_guard, hmas, hmasop, hseq]
  rw [turn_off_station_stop_master st sid mas curr hguard hne]
  exact mod_sub_sixty _ h60 hlt

/-- C7 witness: the amended retraction theorem applied at the concrete
counterexample state. -/
theorem master_retract_value_instance :
    (2 ≠ 0 + 1 ∧ 1 ≤ 2 ∧ c7state.masop 0 = true ∧ c7state.seq = true ∧
      60 ≤ 1000 + c7state.masterOffAdj ∧ 1000 + c7state.masterOffAdj - 60 < U32) ∧
    (turn_off_station c7state 0 2 1000).stop (2 - 1) = 1000 + c7state.masterOffAdj - 60 :=
  ⟨by decide,
    master_retract_value c7state 0 2 1000 (by decide) (by decide) (by decide) (by decide)
      (by decide) (by decide)⟩

/-! ## C6 -/

/-- C6 counterexample: calling `turn_off_station` on the fully idle station 0
at time 100 is not a no-op.  The log guard `curr_time >
scheduled_start_time` compares against the reset value 0, so it appends a
spurious station-run record (program 0, duration 100); and if the idle
station's trigger-master bit is set in sequential mode, the master's stop
time is rewritten as well (here from 0 to 100 + 70 − 60 = 110). -/
theorem turn_off_idle_not_noop_cex :
    (turn_off_station c6state 0 2 100).log ≠ c6state.log ∧
    (turn_off_station c6stateB 0 2 100).stop 1 = 110 ∧
    c6stateB.stop 1 = 0 := by
  decide

/-- C6 (amended): on an already-idle station (`start = stop = prog = 0`, bit
off) that is not the master and does not trigger the master,
`turn_off_station` leaves the whole `ScheduleEntry` table, the output bits
and every status field unchanged — but, because the log guard
`curr_time > scheduled_start_time` holds against the reset value 0, it
appends a station-run log record with program index 0 and duration equal to
`curr_time`, so the log sink is not left unchanged and the function is
idempotent only up to that spurious record. -/
theorem turn_off_idle_frame (st : SchedState) (sid mas curr : Nat)
    (hstart : st.start sid = 0) (hstop : st.stop sid = 0) (hprog : st.prog sid = 0)
    (hbit : st.bits sid = false) (hmasop : st.masop sid = false)
    (hmas : mas ≠ sid + 1) (hcurr : 0 < curr) :
    (turn_off_station st sid mas curr).start = st.start ∧
    (turn_off_station st sid mas curr).stop = st.stop ∧
    (turn_off_station st sid mas curr).prog = st.prog ∧
    (turn_off_station st sid mas curr).bits = st.bits ∧
    (turn_off_station st sid mas curr).log =
      st.log ++ [{ program := 0, station := sid, duration := curr, endtime := curr }] := by
  have hlt : st.start sid < curr := by omega
  refine ⟨?_, ?_, ?_, ?_, ?_⟩
  · funext j
    by_cases hj : j = sid
    · subst hj
      simp [turn_off_station, set_station_bit, master_retract_guard, hmasop, hmas, hlt,
        hstart, updN]
    · simp [turn_off_station, set_station_bit, master_retract_guard, hmasop, hmas, hlt,
        updN, hj]
  · funext j
    by_cases hj : j = sid
    · subst hj
      simp [turn_off_station, set_station_bit, master_retract_guard, hmasop, hmas, hlt,
        hstop, updN]
    · simp [turn_off_station, set_station_bit, master_retract_guard, hmasop, hmas, hlt,
        updN, hj]
  · funext j
    by_cases hj : j = sid
    · subst hj
      simp [turn_off_station, set_station_bit, master_retract_guard, hmasop, hmas, hlt,
        hprog, updN]
    · simp [turn_off_station, set_station_bit, master_retract_guard, hmasop, hmas, hlt,
        updN, hj]
  · funext j
    by_cases hj : j = sid
    · subst hj
      simp [turn_off_station, set_station_bit, master_retract_guard, hmasop, hmas, hlt,
        hbit, updB]
    · simp [turn_off_station, set_station_bit, master_retract_guard, hmasop, hmas, hlt,
        updB, hj]
  · simp [turn_off_station, set_station_bit, master_retract_guard, hmasop, hmas, hlt,
      hcurr, hstart, hprog]

/-- C6 witness: the amended frame theorem applied to the idle station 0 of
`c6state` at time 100. -/
theorem turn_off_idle_frame_instance :
    (c6state.start 0 = 0 ∧ c6state.stop 0 = 0 ∧ c6state.prog 0 = 0 ∧
      c6state.bits 0 = false ∧ c6state.masop 0 = false ∧ 2 ≠ 0 + 1 ∧ 0 < 100) ∧
    (turn_off_station c6state 0 2 100).log =
      c6state.log ++ [{ program := 0, station := 0, duration := 100, endtime := 100 }] :=
  ⟨by decide,
    (turn_off_idle_frame c6state 0 2 100 rfl rfl rfl rfl rfl (by decide) (by decide)).2.2.2.2⟩

/-! ## C3 -/

/-- C3: when a subordinate station with window `[S, E)` turns on in the
runtime pass with a master configured, the station non-master, its
trigger-master bit set and sequential mode active, the master's derived
entry is exactly `start = S + OPTION_MASTER_ON_ADJ`,
`stop = E + OPTION_MASTER_OFF_ADJ − 60`, its program index equals the
subordinate's, the subordinate's bit is set, and if `curr_time` already lies
in the derived window the master's bit is set in the same pass. -/
theorem master_derivation (snap : Nat → Bool) (st : SchedState) (curr sid : Nat)
    (hsnap : snap sid = false)
    (hwin1 : st.start sid ≤ curr) (hwin2 : curr < st.stop sid)
    (hmas : 0 < st.mas) (hns : st.mas ≠ sid + 1)
    (hmasop : st.masop sid = true) (hseq : st.seq = true)
    (hsm1 : st.start sid + st.masterOnAdj < U32)
    (hsm2 : 60 ≤ st.stop sid + st.masterOffAdj)
    (hsm3 : st.stop sid + st.masterOffAdj - 60 < U32) :
    (runtime_station snap curr sid st).start (st.mas - 1) = st.start sid + st.masterOnAdj ∧
    (runtime_station snap curr sid st).stop (st.mas - 1) =
      st.stop sid + st.masterOffAdj - 60 ∧
    (runtime_station snap curr sid st).prog (st.mas - 1) = st.prog sid ∧
    (runtime_station snap curr sid st).bits sid = true ∧
    (st.start sid + st.masterOnAdj ≤ curr ∧ curr < st.stop sid + st.masterOffAdj - 60 →
      (runtime_station snap curr sid st).bits (st.mas - 1) = true) := by
  have hnoff : ¬ (0 < st.prog sid ∧ st.stop sid ≤ curr) := by
    rintro ⟨-, h⟩
    omega
  have hm : st.mas - 1 ≠ sid := by omega
  have hmods : (st.start sid + st.masterOnAdj) % U32 = st.start sid + st.masterOnAdj :=
    Nat.mod_eq_of_lt hsm1
  have hmode : (st.stop sid + st.masterOffAdj + (U32 - 60)) % U32 =
      st.stop sid + st.masterOffAdj - 60 :=
    mod_sub_sixty _ hsm2 hsm3
  unfold runtime_station set_station_bit
  rw [if_neg hnoff, if_pos hsnap, if_pos ⟨hwin1, hwin2⟩,
    if_pos ⟨hmas, hns, hmasop, hseq⟩]
  dsimp only
  rw [updN_at, updN_at, hmods, hmode]
  by_cases hwin : st.start sid + st.masterOnAdj ≤ curr ∧
      curr < st.stop sid + st.masterOffAdj - 60
  · rw [if_pos hwin]
    refine ⟨?_, ?_, ?_, ?_, fun _ => ?_⟩ <;>
      simp [updN, updB, hm, Ne.symm hm]
  · rw [if_neg hwin]
    refine ⟨?_, ?_, ?_, ?_, fun h => absurd h hwin⟩ <;>
      simp [updN, updB, hm, Ne.symm hm]

/-- C3 witness: the derivation theorem at `c3state`, `curr = 200`: the master
(station 4) receives window `[103, 710)`, program index 2, and since
`200 ∈ [103, 710)` its bit is set in the same pass. -/
theorem master_derivation_instance :
    (c3state.bits 1 = false ∧ c3state.start 1 ≤ 200 ∧ 200 < c3state.stop 1 ∧
      0 < c3state.mas ∧ c3state.mas ≠ 1 + 1 ∧ c3state.masop 1 = true ∧ c3state.seq = true) ∧
    (runtime_station c3state.bits 200 1 c3state).start (c3state.mas - 1) = 103 ∧
    (runtime_station c3state.bits 200 1 c3state).stop (c3state.mas - 1) = 710 ∧
    (runtime_station c3state.bits 200 1 c3state).prog (c3state.mas - 1) = 2 ∧
    (runtime_station c3state.bits 200 1 c3state).bits 1 = true ∧
    (runtime_station c3state.bits 200 1 c3state).bits (c3state.mas - 1) = true := by
  have h := master_derivation c3state.bits c3state 200 1 rfl (by decide) (by decide)
    (by decide) (by decide) rfl rfl (by decide) (by decide) (by decide)
  exact ⟨by decide, h.1, h.2.1, h.2.2.1, h.2.2.2.1, h.2.2.2.2 (by decide)⟩

/-! ## Generic fold lemmas -/

theorem foldl_keep {α β : Type} (f : β → α → β) (P : β → Prop) (L : List α)
    (h : ∀ b a, a ∈ L → P b → P (f b a)) : ∀ b, P b → P (L.foldl f b) := by
  induction L with
  | nil => intro b hb; exact hb
  | cons a L ih =>
    intro b hb
    exact ih (fun b' a' ha' hb' => h b' a' (List.mem_cons_of_mem _ ha') hb')
      (f b a) (h b a (List.mem_cons_self _ _) hb)

theorem foldl_establish {α β : Type} (f : β → α → β) (Q P : β → Prop)
    (L1 L2 : List α) (x : α)
    (hQ : ∀ b a, a ∈ L1 → Q b → Q (f b a))
    (hx : ∀ b, Q b → P (f b x))
    (hP : ∀ b a, P b → P (f b a)) :
    ∀ b, Q b → P ((L1 ++ x :: L2).foldl f b) := by
  intro b hb
  rw [List.foldl_append, List.foldl_cons]
  exact foldl_keep f P L2 (fun b' a' _ => hP b' a') _ (hx _ (foldl_keep f Q L1 hQ b hb))

theorem range_split_aux (k m : Nat) :
    List.range (k + (m + 1)) =
      List.range k ++ k :: ((List.range m).map (fun j => k + 1 + j)) := by
  rw [List.range_add, List.range_succ_eq_map, List.map_cons, List.map_map]
  have h2 : ((fun x => k + x) ∘ Nat.succ) = (fun j => k + 1 + j) := by
    funext j
    simp only [Function.comp_apply, Nat.succ_eq_add_one]
    omega
  rw [h2]
  simp

theorem range_split (n k : Nat) (h : k < n) :
    List.range n =
      List.range k ++ k :: ((List.range (n - k - 1)).map (fun j => k + 1 + j)) := by
  have hn : n = k + ((n - k - 1) + 1) := by omega
  conv_lhs => rw [hn]
  exact range_split_aux k (n - k - 1)

/-! ## Locality and preservation lemmas for `process_dynamic_events` -/

theorem pde_station_other (en rain rbit snapb : Bool) (mas curr sid : Nat) (st : SchedState)
    (j : Nat) (hj : j ≠ sid) :
    (pde_station en rain rbit snapb mas curr sid st).bits j = st.bits j ∧
    (pde_station en rain rbit snapb mas curr sid st).prog j = st.prog j := by
  unfold pde_station
  split
  · split
    · exact ⟨turn_off_station_bits_other _ _ _ _ _ hj, turn_off_station_prog_other _ _ _ _ _ hj⟩
    · split
      · exact ⟨rfl, updN_ne _ _ _ _ hj⟩
      · exact ⟨rfl, rfl⟩
  · exact ⟨rfl, rfl⟩

theorem pde_station_ignrain (en rain rbit snapb : Bool) (mas curr sid : Nat) (st : SchedState) :
    (pde_station en rain rbit snapb mas curr sid st).ignrain = st.ignrain := by
  unfold pde_station
  split
  · split
    · exact (turn_off_station_frame _ _ _ _).2.2.2.2.2.2.2.2.1
    · split
      · rfl
      · rfl
  · rfl

theorem pde_station_keep (en rain rbit snapb : Bool) (mas curr sid j : Nat) (st : SchedState)
    (h1 : st.bits j = false) (h2 : st.prog j = 0) :
    (pde_station en rain rbit snapb mas curr sid st).bits j = false ∧
    (pde_station en rain rbit snapb mas curr sid st).prog j = 0 := by
  by_cases hj : j = sid
  · subst hj
    unfold pde_station
    split
    · split
      · exact ⟨turn_off_station_bits_self _ _ _ _, turn_off_station_prog_self _ _ _ _⟩
      · split
        · omega
        · exact ⟨h1, h2⟩
    · exact ⟨h1, h2⟩
  · obtain ⟨hb, hp⟩ := pde_station_other en rain rbit snapb mas curr sid st j hj
    exact ⟨hb.trans h1, hp.trans h2⟩

theorem pde_station_establish (en rain rbit snapb : Bool) (mas curr sid : Nat) (st : SchedState)
    (hp1 : 0 < st.prog sid) (hp2 : st.prog sid < 99)
    (hcond : en = false ∨ (rain = true ∧ rbit = false))
    (hsb : snapb = st.bits sid) :
    (pde_station en rain rbit snapb mas curr sid st).bits sid = false ∧
    (pde_station en rain rbit snapb mas curr sid st).prog sid = 0 := by
  unfold pde_station
  rw [if_pos ⟨hp2, hcond⟩]
  by_cases hs : snapb = true
  · rw [if_pos hs]
    exact ⟨turn_off_station_bits_self _ _ _ _, turn_off_station_prog_self _ _ _ _⟩
  · rw [if_neg hs, if_pos hp1]
    have hb : st.bits sid = false := by
      rw [← hsb]
      cases hsnapb : snapb
      · rfl
      · exact absurd hsnapb hs
    exact ⟨hb, updN_at _ _ _⟩

theorem pde_board_eq (en rain : Bool) (curr bid : Nat) (st : SchedState) :
    pde_board en rain curr bid st =
      (List.range 8).foldl
        (fun acc s =>
          pde_station en rain (st.ignrain (bid * 8 + s)) (st.bits (bid * 8 + s)) acc.mas curr
            (bid * 8 + s) acc) st := rfl

theorem pde_board_untouched (en rain : Bool) (curr bid : Nat) (b : SchedState) (sid : Nat)
    (h : ∀ s, s < 8 → bid * 8 + s ≠ sid) :
    (pde_board en rain curr bid b).bits sid = b.bits sid ∧
    (pde_board en rain curr bid b).prog sid = b.prog sid ∧
    (pde_board en rain curr bid b).ignrain sid = b.ignrain sid := by
  rw [pde_board_eq]
  refine foldl_keep _
    (fun x => x.bits sid = b.bits sid ∧ x.prog sid = b.prog sid ∧ x.ignrain sid = b.ignrain sid)
    _ ?_ b ⟨rfl, rfl, rfl⟩
  intro x a ha hx
  have hne := h a (List.mem_range.mp ha)
  obtain ⟨h1, h2⟩ := pde_station_other en rain (b.ignrain (bid * 8 + a)) (b.bits (bid * 8 + a))
    x.mas curr (bid * 8 + a) x sid (fun hcontra => hne hcontra.symm)
  refine ⟨h1.trans hx.1, h2.trans hx.2.1, ?_⟩
  rw [pde_station_ignrain]
  exact hx.2.2

theorem pde_board_keep (en rain : Bool) (curr bid : Nat) (b : SchedState) (sid : Nat)
    (h1 : b.bits sid = false) (h2 : b.prog sid = 0) :
    (pde_board en rain curr bid b).bits sid = false ∧
    (pde_board en rain curr bid b).prog sid = 0 := by
  unfold pde_board
  refine foldl_keep _ (fun x => x.bits sid = false ∧ x.prog sid = 0) _ ?_ b ⟨h1, h2⟩
  intro x a ha hx
  exact pde_station_keep en rain (b.ignrain (bid * 8 + a)) (b.bits (bid * 8 + a))
    x.mas curr (bid * 8 + a) sid x hx.1 hx.2

theorem pde_board_establish (en rain : Bool) (curr bid : Nat) (b : SchedState) (sid s0 : Nat)
    (hs0 : s0 < 8) (heq : bid * 8 + s0 = sid)
    (hp1 : 0 < b.prog sid) (hp2 : b.prog sid < 99)
    (hcond : en = false ∨ (rain = true ∧ b.ignrain sid = false)) :
    (pde_board en rain curr bid b).bits sid = false ∧
    (pde_board en rain curr bid b).prog sid = 0 := by
  unfold pde_board
  rw [range_split 8 s0 hs0]
  refine foldl_establish _
    (fun x => x.bits sid = b.bits sid ∧ x.prog sid = b.prog sid)
    (fun x => x.bits sid = false ∧ x.prog sid = 0)
    _ _ _ ?_ ?_ ?_ b ⟨rfl, rfl⟩
  · intro x a ha hx
    have ha' : a < s0 := List.mem_range.mp ha
    have hne : sid ≠ bid * 8 + a := by omega
    obtain ⟨h1, h2⟩ := pde_station_other en rain (b.ignrain (bid * 8 + a)) (b.bits (bid * 8 + a))
      x.mas curr (bid * 8 + a) x sid hne
    exact ⟨h1.trans hx.1, h2.trans hx.2⟩
  · intro x hx
    rw [heq]
    refine pde_station_establish en rain (b.ignrain sid) (b.bits sid) x.mas curr sid x ?_ ?_
      hcond ?_
    · rw [hx.2]
      exact hp1
    · rw [hx.2]
      exact hp2
    · rw [hx.1]
  · intro x a hx
    exact pde_station_keep en rain (b.ignrain (bid * 8 + a)) (b.bits (bid * 8 + a))
      x.mas curr (bid * 8 + a) sid x hx.1 hx.2

/-! ## C1 -/

/-- C1: whenever the controller is globally disabled, or a rain condition
(`rain_delayed`, or rain sensor option enabled and `rain_sensed`) is active
and the station's ignore-rain bit is clear, every station whose
`scheduled_program_index` is a normal program value (`0 < index < 99`) ends
`process_dynamic_events` with its output bit off and its `ScheduleEntry`
program index cleared — a running station is forced off through
`turn_off_station` and a merely queued one has its entry cleared — so no
such station is left in the Running state. -/
theorem dynamic_events_override (st : SchedState) (curr sid : Nat)
    (hsid : sid < 8 * st.nboards)
    (hp1 : 0 < st.prog sid) (hp2 : st.prog sid < 99)
    (hcond : st.enabled = false ∨
      ((st.rainDelayed || (st.useRainsensor && st.rainSensed)) = true ∧
        st.ignrain sid = false)) :
    (process_dynamic_events st curr).bits sid = false ∧
    (process_dynamic_events st curr).prog sid = 0 := by
  have hunf : process_dynamic_events st curr =
      (List.range st.nboards).foldl
        (fun acc bid =>
          pde_board st.enabled (st.rainDelayed || (st.useRainsensor && st.rainSensed))
            curr bid acc)
        st := rfl
  rw [hunf]
  have hbid : sid / 8 < st.nboards := by omega
  have heq : (sid / 8) * 8 + sid % 8 = sid := by omega
  rw [range_split st.nboards (sid / 8) hbid]
  refine foldl_establish _
    (fun x => x.bits sid = st.bits sid ∧ x.prog sid = st.prog sid ∧
      x.ignrain sid = st.ignrain sid)
    (fun x => x.bits sid = false ∧ x.prog sid = 0)
    _ _ _ ?_ ?_ ?_ st ⟨rfl, rfl, rfl⟩
  · intro x a ha hx
    have ha' : a < sid / 8 := List.mem_range.mp ha
    obtain ⟨h1, h2, h3⟩ := pde_board_untouched st.enabled
      (st.rainDelayed || (st.useRainsensor && st.rainSensed)) curr a x sid
      (fun s hs => by omega)
    exact ⟨h1.trans hx.1, h2.trans hx.2.1, h3.trans hx.2.2⟩
  · intro x hx
    refine pde_board_establish _ _ curr (sid / 8) x sid (sid % 8) (by omega) heq ?_ ?_ ?_
    · rw [hx.2.1]
      exact hp1
    · rw [hx.2.1]
      exact hp2
    · rcases hcond with h | ⟨hr, hi⟩
      · exact Or.inl h
      · exact Or.inr ⟨hr, hx.2.2.trans hi⟩
  · intro x a hx
    exact pde_board_keep _ _ curr a x sid hx.1 hx.2

/-- C1 witness: the override theorem at `c1state` (disabled controller,
station 3 queued under a normal program index), `curr = 100`. -/
theorem dynamic_events_override_instance :
    (3 < 8 * c1state.nboards ∧ 0 < c1state.prog 3 ∧ c1state.prog 3 < 99 ∧
      c1state.enabled = false) ∧
    (process_dynamic_events c1state 100).bits 3 = false ∧
    (process_dynamic_events c1state 100).prog 3 = 0 :=
  ⟨by decide,
    dynamic_events_override c1state 100 3 (by decide) (by decide) (by decide) (Or.inl rfl)⟩

/-! ## C9 -/

/-- C9: the network health monitor is skipped entirely while `program_busy`
(once initialised); the probe gate interval is `CHECK_NETWORK_INTERVAL *
2^network_fails`; a failed probe (with the reinitialisation also failing)
sets `network_fails` to `min (fails + 1) 6`, so with `fails ≤ 6` the interval
never decreases, stays capped at `30 * 2^6`, and the fail counter stays ≤ 6;
a successful probe resets `network_fails` to 0, restoring the base interval
`net_interval 0 = 30`. -/
theorem network_backoff (st : NetState) (curr : Nat) (hinit : st.lastCheckTime ≠ 0) :
    (st.programBusy = true → ∀ p r, check_network st curr p r = st) ∧
    (st.programBusy = false → net_interval st.networkFails < curr - st.lastCheckTime →
      ((check_network st curr false false).networkFails = min (st.networkFails + 1) 6 ∧
        (st.networkFails ≤ 6 →
          net_interval st.networkFails ≤
            net_interval ((check_network st curr false false).networkFails) ∧
          net_interval ((check_network st curr false false).networkFails) ≤ 2 ^ 6 * 30 ∧
          (check_network st curr false false).networkFails ≤ 6)) ∧
      (∀ r, (check_network st curr true r).networkFails = 0 ∧ net_interval 0 = 30)) := by
  constructor
  · intro hbusy p r
    unfold check_network
    rw [if_neg hinit]
    rw [if_pos hbusy]
  · intro hidle hdue
    have hfail : (check_network st curr false false).networkFails =
        min (st.networkFails + 1) 6 := by
      unfold check_network
      rw [if_neg hinit, if_neg (by rw [hidle]; exact Bool.false_ne_true), if_pos hdue]
      dsimp only
      rw [if_neg (fun hc : (false : Bool) = true => absurd hc Bool.false_ne_true)]
      split
      · rw [if_neg (fun hc : (false : Bool) = true => absurd hc Bool.false_ne_true)]
      · rfl
    refine ⟨⟨hfail, ?_⟩, ?_⟩
    · intro h6
      rw [hfail]
      have hle : st.networkFails ≤ min (st.networkFails + 1) 6 :=
        le_min (Nat.le_succ _) h6
      have hle6 : min (st.networkFails + 1) 6 ≤ 6 := min_le_right _ _
      refine ⟨?_, ?_, hle6⟩
      · exact Nat.mul_le_mul_right 30 (Nat.pow_le_pow_right (by omega) hle)
      · exact Nat.mul_le_mul_right 30 (Nat.pow_le_pow_right (by omega) hle6)
    · intro r
      refine ⟨?_, rfl⟩
      unfold check_network
      rw [if_neg hinit, if_neg (by rw [hidle]; exact Bool.false_ne_true), if_pos hdue]
      dsimp only
      rw [if_pos rfl]
      split
      · split
        · rfl
        · rfl
      · rfl

/-- C9 witness: the backoff theorem at `c9net` with `curr = 341` (the fail
counter is 3, so the gate interval is 240 and the probe is due): a failed
probe raises the counter to `min 4 6 = 4`, a successful one resets it to 0. -/
theorem network_backoff_instance :
    (c9net.lastCheckTime ≠ 0 ∧ c9net.programBusy = false ∧
      net_interval c9net.networkFails < 341 - c9net.lastCheckTime) ∧
    (check_network c9net 341 false false).networkFails = min (c9net.networkFails + 1) 6 ∧
    (check_network c9net 341 true false).networkFails = 0 :=
  ⟨by decide,
    ((network_backoff c9net 341 (by decide)).2 rfl (by decide)).1.1,
    (((network_backoff c9net 341 (by decide)).2 rfl (by decide)).2 false).1⟩

/-! ## Helper lemmas for `schedule_all_stations` -/

theorem sas_init_seq (st : SchedState) (curr delay : Nat)
    (h1 : st.lastStopTime + delay < U32) (h2 : curr + 1 < U32) :
    sas_init st curr true delay =
      if 0 < st.lastStopTime then st.lastStopTime + delay else curr + 1 := by
  unfold sas_init
  by_cases h : 0 < st.lastStopTime
  · rw [if_pos ⟨rfl, h⟩, if_pos h, Nat.mod_eq_of_lt h1]
  · rw [if_neg (fun hc => h hc.2), if_neg h, Nat.mod_eq_of_lt h2]

theorem sas_station_skip (delay : Nat) (seq : Bool) (stx : SchedState) (cur sid : Nat)
    (h : stx.mas = sid + 1 ∨ stx.stop sid = 0 ∨ stx.start sid ≠ 0 ∨ stx.bits sid = true) :
    sas_station delay seq (stx, cur) sid = (stx, cur) := by
  unfold sas_station
  dsimp only
  by_cases h1 : stx.mas = sid + 1
  · rw [if_pos h1]
  · rw [if_neg h1]
    rcases h with h | h | h | h
    · exact absurd h h1
    · rw [if_pos (Or.inl h)]
    · rw [if_pos (Or.inr (Or.inl h))]
    · rw [if_pos (Or.inr (Or.inr h))]

theorem sas_station_go (delay : Nat) (stx : SchedState) (cur sid : Nat)
    (h1 : stx.mas ≠ sid + 1) (h2 : stx.stop sid ≠ 0) (h3 : stx.start sid = 0)
    (h4 : stx.bits sid = false)
    (hm1 : cur + stx.stop sid < U32) (hm2 : cur + stx.stop sid + delay < U32) :
    sas_station delay true (stx, cur) sid =
      ({ stx with
          start := updN stx.start sid cur,
          stop := updN stx.stop sid (cur + stx.stop sid),
          programBusy := true }, cur + stx.stop sid + delay) := by
  unfold sas_station
  dsimp only
  rw [if_neg h1, if_neg ?hskip, if_pos rfl, Nat.mod_eq_of_lt hm1, Nat.mod_eq_of_lt hm2]
  case hskip =>
    rintro (h | h | h)
    · exact h2 h
    · exact h (h3 ▸ rfl)
    · exact absurd (h4 ▸ h) Bool.false_ne_true

/-! ## C4 -/

/-- C4 counterexample: with `curr_time = 100`, `last_stop_time = 1` and
inter-station delay 0, sequential scheduling assigns station 0 the start
time 1 — the raw `last_stop_time + delay` — not
`max(curr_time + 1, last_stop_time + delay) = 101` as the claim states. -/
theorem sequential_cursor_not_max_cex :
    (schedule_all_stations c4state 100 true 0).start 0 = 1 ∧
    c4state.lastStopTime = 1 ∧
    Nat.max (100 + 1) (c4state.lastStopTime + 0) = 101 ∧
    (1 : Nat) ≠ 101 := by
  decide

/-- C4 (amended): in sequential mode the running cursor is initialised to
`curr_time + 1`, replaced by `last_stop_time + interStationDelay` whenever
`last_stop_time > 0` — even when that value is smaller than `curr_time + 1`
(there is no `max`); then each qualifying station in ascending id order gets
`start = cursor`, `stop = cursor + demandDuration`, and the cursor advances
to `stop + interStationDelay`, while skipped stations leave the cursor and
their entries untouched. -/
theorem sequential_cursor_spec (st stx : SchedState) (curr delay cur sid : Nat)
    (hinit1 : st.lastStopTime + delay < U32) (hinit2 : curr + 1 < U32)
    (hq1 : stx.mas ≠ sid + 1) (hq2 : stx.stop sid ≠ 0) (hq3 : stx.start sid = 0)
    (hq4 : stx.bits sid = false)
    (hm1 : cur + stx.stop sid < U32) (hm2 : cur + stx.stop sid + delay < U32) :
    (schedule_all_stations st curr true delay =
      ((List.range (8 * st.nboards)).foldl (sas_station delay true)
        (st, sas_init st curr true delay)).1) ∧
    (sas_init st curr true delay =
      if 0 < st.lastStopTime then st.lastStopTime + delay else curr + 1) ∧
    ((sas_station delay true (stx, cur) sid).1.start sid = cur ∧
      (sas_station delay true (stx, cur) sid).1.stop sid = cur + stx.stop sid ∧
      (sas_station delay true (stx, cur) sid).1.programBusy = true ∧
      (sas_station delay true (stx, cur) sid).2 = cur + stx.stop sid + delay) ∧
    (∀ (sty : SchedState) (cur2 sid2 : Nat),
      sty.mas = sid2 + 1 ∨ sty.stop sid2 = 0 ∨ sty.start sid2 ≠ 0 ∨ sty.bits sid2 = true →
      sas_station delay true (sty, cur2) sid2 = (sty, cur2)) := by
  refine ⟨rfl, sas_init_seq st curr delay hinit1 hinit2, ?_, ?_⟩
  · rw [sas_station_go delay stx cur sid hq1 hq2 hq3 hq4 hm1 hm2]
    exact ⟨updN_at _ _ _, updN_at _ _ _, rfl, rfl⟩
  · intro sty cur2 sid2 h
    exact sas_station_skip delay true sty cur2 sid2 h

/-- C4 witness: the amended cursor theorem at `c4state` (station 0 pending,
stale `last_stop_time = 1`), `curr = 100`, delay 0, cursor 1. -/
theorem sequential_cursor_spec_instance :
    (c4state.lastStopTime + 0 < U32 ∧ 100 + 1 < U32 ∧ c4state.mas ≠ 0 + 1 ∧
      c4state.stop 0 ≠ 0 ∧ c4state.start 0 = 0 ∧ c4state.bits 0 = false ∧
      1 + c4state.stop 0 < U32 ∧ 1 + c4state.stop 0 + 0 < U32) ∧
    (sas_init c4state 100 true 0 = if 0 < c4state.lastStopTime
      then c4state.lastStopTime + 0 else 100 + 1) ∧
    (sas_station 0 true (c4state, 1) 0).1.start 0 = 1 ∧
    (sas_station 0 true (c4state, 1) 0).1.stop 0 = 1 + c4state.stop 0 ∧
    (sas_station 0 true (c4state, 1) 0).2 = 1 + c4state.stop 0 + 0 :=
  ⟨by decide,
    (sequential_cursor_spec c4state c4state 100 0 1 0 (by decide) (by decide) (by decide)
      (by decide) (by decide) (by decide) (by decide) (by decide)).2.1,
    (sequential_cursor_spec c4state c4state 100 0 1 0 (by decide) (by decide) (by decide)
      (by decide) (by decide) (by decide) (by decide) (by decide)).2.2.1.1,
    (sequential_cursor_spec c4state c4state 100 0 1 0 (by decide) (by decide) (by decide)
      (by decide) (by decide) (by decide) (by decide) (by decide)).2.2.1.2.1,
    (sequential_cursor_spec c4state c4state 100 0 1 0 (by decide) (by decide) (by decide)
      (by decide) (by decide) (by decide) (by decide) (by decide)).2.2.1.2.2.2⟩

/-! ## C5 -/

/-- C5: scheduling the pending demands of 600 s at stations 1 and 2 in
sequential mode with inter-station delay 5 at current time `T` yields
station 1 the window `[T+1, T+601)` and station 2 the window
`[T+606, T+1206)`. -/
theorem two_station_schedule_scenario (T : Nat) (h : T + 1211 < U32) :
    (schedule_all_stations c5state T true 5).start 1 = T + 1 ∧
    (schedule_all_stations c5state T true 5).stop 1 = T + 601 ∧
    (schedule_all_stations c5state T true 5).start 2 = T + 606 ∧
    (schedule_all_stations c5state T true 5).stop 2 = T + 1206 := by
  have hU : U32 = 4294967296 := rfl
  rw [hU] at h
  have h600 : c5state.stop 1 = 600 := rfl
  have hmid600 : (c5mid T).stop 2 = 600 := rfl
  have hinit : sas_init c5state T true 5 = T + 1 := by
    unfold sas_init
    rw [if_neg (fun hc => absurd hc.2 (by decide))]
    exact Nat.mod_eq_of_lt (by rw [hU]; omega)
  have hgo1 : sas_station 5 true (c5state, T + 1) 1 = (c5mid T, T + 606) := by
    rw [sas_station_go 5 c5state (T + 1) 1 (by decide) (by decide) rfl rfl
      (by rw [h600, hU]; omega) (by rw [h600, hU]; omega)]
    rw [h600, show T + 1 + 600 = T + 601 from by omega,
      show T + 601 + 5 = T + 606 from by omega]
    rfl
  have hgo2 : sas_station 5 true (c5mid T, T + 606) 2 = (c5fin T, T + 1211) := by
    rw [sas_station_go 5 (c5mid T) (T + 606) 2
      (by rw [show (c5mid T).mas = 0 from rfl]; omega)
      (by rw [hmid600]; omega) rfl rfl
      (by rw [hmid600, hU]; omega) (by rw [hmid600, hU]; omega)]
    rw [hmid600, show T + 606 + 600 = T + 1206 from by omega,
      show T + 1206 + 5 = T + 1211 from by omega]
    rfl
  have hr : List.range (8 * c5state.nboards) = [0, 1, 2, 3, 4, 5, 6, 7] := rfl
  unfold schedule_all_stations
  rw [hr, hinit]
  simp only [List.foldl_cons, List.foldl_nil]
  rw [sas_station_skip 5 true c5state (T + 1) 0 (Or.inr (Or.inl rfl)), hgo1, hgo2,
    sas_station_skip 5 true (c5fin T) (T + 1211) 3 (Or.inr (Or.inl rfl)),
    sas_station_skip 5 true (c5fin T) (T + 1211) 4 (Or.inr (Or.inl rfl)),
    sas_station_skip 5 true (c5fin T) (T + 1211) 5 (Or.inr (Or.inl rfl)),
    sas_station_skip 5 true (c5fin T) (T + 1211) 6 (Or.inr (Or.inl rfl)),
    sas_station_skip 5 true (c5fin T) (T + 1211) 7 (Or.inr (Or.inl rfl))]
  exact ⟨rfl, rfl, rfl, rfl⟩

/-- C5 witness: the scenario theorem evaluated at `T = 1000`. -/
theorem two_station_schedule_scenario_instance :
    (1000 + 1211 < U32) ∧
    (schedule_all_stations c5state 1000 true 5).start 1 = 1001 ∧
    (schedule_all_stations c5state 1000 true 5).stop 1 = 1601 ∧
    (schedule_all_stations c5state 1000 true 5).start 2 = 1606 ∧
    (schedule_all_stations c5state 1000 true 5).stop 2 = 2206 :=
  ⟨by decide, (two_station_schedule_scenario 1000 (by decide)).1,
    (two_station_schedule_scenario 1000 (by decide)).2.1,
    (two_station_schedule_scenario 1000 (by decide)).2.2.1,
    (two_station_schedule_scenario 1000 (by decide)).2.2.2⟩

/-! ## C8 -/

theorem match_station_entry (decode : Nat → Nat) (pct pid : Nat) (p : ProgramRec)
    (acc : SchedState × Bool) (sid' : Nat) :
    (match_station decode pct pid p acc sid').1.start = acc.1.start ∧
    (match_station decode pct pid p acc sid').1.bits = acc.1.bits ∧
    (match_station decode pct pid p acc sid').1.mas = acc.1.mas ∧
    (match_station decode pct pid p acc sid').1.stndis = acc.1.stndis ∧
    (match_station decode pct pid p acc sid').1.nboards = acc.1.nboards := by
  unfold match_station
  dsimp only
  split
  · exact ⟨rfl, rfl, rfl, rfl, rfl⟩
  · split
    · split
      · exact ⟨rfl, rfl, rfl, rfl, rfl⟩
      · exact ⟨rfl, rfl, rfl, rfl, rfl⟩
    · exact ⟨rfl, rfl, rfl, rfl, rfl⟩

theorem match_station_other_entry (decode : Nat → Nat) (pct pid : Nat) (p : ProgramRec)
    (acc : SchedState × Bool) (sid' j : Nat) (hj : j ≠ sid') :
    (match_station decode pct pid p acc sid').1.stop j = acc.1.stop j ∧
    (match_station decode pct pid p acc sid').1.prog j = acc.1.prog j := by
  unfold match_station
  dsimp only
  split
  · exact ⟨rfl, rfl⟩
  · split
    · split
      · exact ⟨updN_ne _ _ _ _ hj, updN_ne _ _ _ _ hj⟩
      · exact ⟨updN_ne _ _ _ _ hj, rfl⟩
    · exact ⟨rfl, rfl⟩

theorem match_station_inv (decode : Nat → Nat) (pct pid : Nat) (p : ProgramRec)
    (st : SchedState) (sid : Nat) (acc : SchedState × Bool) (sid' : Nat)
    (hmas : acc.1.mas = st.mas) (hbits : acc.1.bits = st.bits)
    (hstndis : acc.1.stndis = st.stndis)
    (hD : (acc.1.stop sid = st.stop sid ∧ acc.1.prog sid = st.prog sid) ∨
      (acc.1.stop sid ≠ 0 ∧ st.stop sid = 0 ∧ st.mas ≠ sid + 1 ∧ st.bits sid = false ∧
        st.stndis sid = false)) :
    ((match_station decode pct pid p acc sid').1.stop sid = st.stop sid ∧
      (match_station decode pct pid p acc sid').1.prog sid = st.prog sid) ∨
    ((match_station decode pct pid p acc sid').1.stop sid ≠ 0 ∧ st.stop sid = 0 ∧
      st.mas ≠ sid + 1 ∧ st.bits sid = false ∧ st.stndis sid = false) := by
  by_cases hj : sid = sid'
  case neg =>
    obtain ⟨h1, h2⟩ := match_station_other_entry decode pct pid p acc sid' sid hj
    rcases hD with ⟨a, b⟩ | ⟨a, rest⟩
    · exact Or.inl ⟨h1.trans a, h2.trans b⟩
    · exact Or.inr ⟨by rw [h1]; exact a, rest⟩
  case pos =>
    subst hj
    unfold match_station
    dsimp only
    split
    · exact hD
    · rename_i hskip
      split
      · rename_i hgo
        rcases hD with ⟨ha, hb⟩ | ⟨ha, -⟩
        · have hstz : st.stop sid = 0 := ha ▸ hgo.2
          have hm : st.mas ≠ sid + 1 := fun hc => hskip (Or.inl (by rw [hmas]; exact hc))
          have hbit : st.bits sid = false := by
            cases hv : st.bits sid
            · rfl
            · exact absurd (Or.inr (Or.inl (by rw [hbits]; exact hv))) hskip
          have hsd : st.stndis sid = false := by
            cases hv : st.stndis sid
            · rfl
            · exact absurd (Or.inr (Or.inr (by rw [hstndis]; exact hv))) hskip
          split
          · rename_i hd
            exact Or.inr ⟨by simp only [updN_at]; exact hd, hstz, hm, hbit, hsd⟩
          · rename_i hd
            have hd0 : decode (p.durations sid) * pct % U32 / 100 = 0 := by
              by_contra hc
              exact hd hc
            refine Or.inl ⟨?_, hb⟩
            simp only [updN_at]
            rw [hd0, hstz]
        · exact absurd hgo.2 ha
      · exact hD

theorem run_matcher_inv (decode : Nat → Nat) (pct : Nat) (progs : List (Nat × ProgramRec))
    (st : SchedState) (sid : Nat) :
    (run_matcher decode pct progs st).1.start = st.start ∧
    (run_matcher decode pct progs st).1.bits = st.bits ∧
    (run_matcher decode pct progs st).1.mas = st.mas ∧
    (run_matcher decode pct progs st).1.stndis = st.stndis ∧
    (run_matcher decode pct progs st).1.nboards = st.nboards ∧
    (((run_matcher decode pct progs st).1.stop sid = st.stop sid ∧
       (run_matcher decode pct progs st).1.prog sid = st.prog sid) ∨
      ((run_matcher decode pct progs st).1.stop sid ≠ 0 ∧ st.stop sid = 0 ∧
        st.mas ≠ sid + 1 ∧ st.bits sid = false ∧ st.stndis sid = false)) := by
  unfold run_matcher
  refine foldl_keep _
    (fun acc => acc.1.start = st.start ∧ acc.1.bits = st.bits ∧ acc.1.mas = st.mas ∧
      acc.1.stndis = st.stndis ∧ acc.1.nboards = st.nboards ∧
      ((acc.1.stop sid = st.stop sid ∧ acc.1.prog sid = st.prog sid) ∨
        (acc.1.stop sid ≠ 0 ∧ st.stop sid = 0 ∧ st.mas ≠ sid + 1 ∧ st.bits sid = false ∧
          st.stndis sid = false)))
    _ ?_ (st, false) ⟨rfl, rfl, rfl, rfl, rfl, Or.inl ⟨rfl, rfl⟩⟩
  intro acc pr hpr hinv
  by_cases hm : pr.2.fires = true
  · rw [if_pos hm]
    refine foldl_keep _
      (fun a => a.1.start = st.start ∧ a.1.bits = st.bits ∧ a.1.mas = st.mas ∧
        a.1.stndis = st.stndis ∧ a.1.nboards = st.nboards ∧
        ((a.1.stop sid = st.stop sid ∧ a.1.prog sid = st.prog sid) ∨
          (a.1.stop sid ≠ 0 ∧ st.stop sid = 0 ∧ st.mas ≠ sid + 1 ∧ st.bits sid = false ∧
            st.stndis sid = false)))
      _ ?_ acc hinv
    intro a s hs ha
    obtain ⟨e1, e2, e3, e4, e5⟩ := match_station_entry decode pct pr.1 pr.2 a s
    exact ⟨e1.trans ha.1, e2.trans ha.2.1, e3.trans ha.2.2.1, e4.trans ha.2.2.2.1,
      e5.trans ha.2.2.2.2.1,
      match_station_inv decode pct pr.1 pr.2 st sid a s ha.2.2.1 ha.2.1 ha.2.2.2.1
        ha.2.2.2.2.2⟩
  · rw [if_neg hm]
    exact hinv

/-- C8: the minute-boundary program matcher mutates the `ScheduleEntry`
table only by recording new demand: start times and output bits are never
written; a station that is the master, currently running, disabled, or that
already has a pending (non-zero) stop value keeps its stop and program index
unchanged (the first program to claim a station in the minute wins); and any
station whose entry did change was claimable (no skip condition, no pending
stop) and ends with a non-zero recorded demand. -/
theorem matcher_frame_effect (decode : Nat → Nat) (pct : Nat)
    (progs : List (Nat × ProgramRec)) (st : SchedState) (sid : Nat) :
    (run_matcher decode pct progs st).1.start = st.start ∧
    (run_matcher decode pct progs st).1.bits = st.bits ∧
    ((st.mas = sid + 1 ∨ st.bits sid = true ∨ st.stndis sid = true ∨ st.stop sid ≠ 0) →
      (run_matcher decode pct progs st).1.stop sid = st.stop sid ∧
      (run_matcher decode pct progs st).1.prog sid = st.prog sid) ∧
    ((run_matcher decode pct progs st).1.stop sid ≠ st.stop sid ∨
      (run_matcher decode pct progs st).1.prog sid ≠ st.prog sid →
      st.stop sid = 0 ∧ st.mas ≠ sid + 1 ∧ st.bits sid = false ∧ st.stndis sid = false ∧
      (run_matcher decode pct progs st).1.stop sid ≠ 0) := by
  obtain ⟨h1, h2, h3, h4, h5, hD⟩ := run_matcher_inv decode pct progs st sid
  refine ⟨h1, h2, ?_, ?_⟩
  · intro hprot
    rcases hD with ⟨a, b⟩ | ⟨a, hz, hm, hb, hd⟩
    · exact ⟨a, b⟩
    · exfalso
      rcases hprot with h | h | h | h
      · exact hm h
      · rw [hb] at h
        exact Bool.false_ne_true h
      · rw [hd] at h
        exact Bool.false_ne_true h
      · exact h hz
  · intro hch
    rcases hD with ⟨a, b⟩ | ⟨a, hz, hm, hb, hd⟩
    · rcases hch with h | h
      · exact absurd a h
      · exact absurd b h
    · exact ⟨hz, hm, hb, hd, a⟩

/-- C8 witness: the frame theorem applied with the identity decode and 100%
water scaling: although the program demands time at station 2, the disabled
station's entry is untouched. -/
theorem matcher_frame_effect_instance :
    c8state.stndis 2 = true ∧
    (run_matcher (fun d => d) 100 matcherProgs c8state).1.stop 2 = c8state.stop 2 ∧
    (run_matcher (fun d => d) 100 matcherProgs c8state).1.prog 2 = c8state.prog 2 := by
  have h := (matcher_frame_effect (fun d => d) 100 matcherProgs c8state 2).2.2.1
    (Or.inr (Or.inr (Or.inl rfl)))
  exact ⟨rfl, h.1, h.2⟩

/-! ## C2 -/

theorem turn_off_station_busy (st : SchedState) (sid mas curr : Nat) :
    (turn_off_station st sid mas curr).programBusy = st.programBusy :=
  (turn_off_station_frame st sid mas curr).2.2.2.2.2.2.2.1

theorem turn_off_station_nboards (st : SchedState) (sid mas curr : Nat) :
    (turn_off_station st sid mas curr).nboards = st.nboards :=
  (turn_off_station_frame st sid mas curr).1

theorem pde_station_busy (en rain rbit snapb : Bool) (mas curr sid : Nat) (st : SchedState) :
    (pde_station en rain rbit snapb mas curr sid st).programBusy = st.programBusy ∧
    (pde_station en rain rbit snapb mas curr sid st).nboards = st.nboards := by
  unfold pde_station
  split
  · split
    · exact ⟨turn_off_station_busy _ _ _ _, turn_off_station_nboards _ _ _ _⟩
    · split
      · exact ⟨rfl, rfl⟩
      · exact ⟨rfl, rfl⟩
  · exact ⟨rfl, rfl⟩

theorem runtime_station_busy (snap : Nat → Bool) (curr sid : Nat) (st : SchedState) :
    (runtime_station snap curr sid st).programBusy = st.programBusy ∧
    (runtime_station snap curr sid st).nboards = st.nboards := by
  unfold runtime_station set_station_bit
  dsimp only
  repeat' split
  all_goals simp [turn_off_station_busy, turn_off_station_nboards]

theorem runtime_board_eq (curr bid : Nat) (st : SchedState) :
    runtime_board curr bid st =
      (List.range 8).foldl (fun acc s => runtime_station st.bits curr (bid * 8 + s) acc) st :=
  rfl

theorem runtime_board_busy (curr bid : Nat) (st : SchedState) :
    (runtime_board curr bid st).programBusy = st.programBusy ∧
    (runtime_board curr bid st).nboards = st.nboards := by
  rw [runtime_board_eq]
  refine foldl_keep _ (fun x => x.programBusy = st.programBusy ∧ x.nboards = st.nboards)
    _ ?_ st ⟨rfl, rfl⟩
  intro x a ha hx
  obtain ⟨h1, h2⟩ := runtime_station_busy st.bits curr (bid * 8 + a) x
  exact ⟨h1.trans hx.1, h2.trans hx.2⟩

theorem run_busy_pass_busy (st : SchedState) (curr : Nat) :
    (run_busy_pass st curr).programBusy = st.programBusy ∧
    (run_busy_pass st curr).nboards = st.nboards := by
  unfold run_busy_pass
  refine foldl_keep _ (fun x => x.programBusy = st.programBusy ∧ x.nboards = st.nboards)
    _ ?_ st ⟨rfl, rfl⟩
  intro x a ha hx
  obtain ⟨h1, h2⟩ := runtime_board_busy curr a x
  exact ⟨h1.trans hx.1, h2.trans hx.2⟩

theorem pde_board_busy (en rain : Bool) (curr bid : Nat) (st : SchedState) :
    (pde_board en rain curr bid st).programBusy = st.programBusy ∧
    (pde_board en rain curr bid st).nboards = st.nboards := by
  rw [pde_board_eq]
  refine foldl_keep _ (fun x => x.programBusy = st.programBusy ∧ x.nboards = st.nboards)
    _ ?_ st ⟨rfl, rfl⟩
  intro x a ha hx
  obtain ⟨h1, h2⟩ := pde_station_busy en rain (st.ignrain (bid * 8 + a)) (st.bits (bid * 8 + a))
    x.mas curr (bid * 8 + a) x
  exact ⟨h1.trans hx.1, h2.trans hx.2⟩

theorem process_dynamic_events_busy (st : SchedState) (curr : Nat) :
    (process_dynamic_events st curr).programBusy = st.programBusy ∧
    (process_dynamic_events st curr).nboards = st.nboards := by
  have hunf : process_dynamic_events st curr =
      (List.range st.nboards).foldl
        (fun acc bid =>
          pde_board st.enabled (st.rainDelayed || (st.useRainsensor && st.rainSensed))
            curr bid acc)
        st := rfl
  rw [hunf]
  refine foldl_keep _ (fun x => x.programBusy = st.programBusy ∧ x.nboards = st.nboards)
    _ ?_ st ⟨rfl, rfl⟩
  intro x a ha hx
  obtain ⟨h1, h2⟩ := pde_board_busy st.enabled
    (st.rainDelayed || (st.useRainsensor && st.rainSensed)) curr a x
  exact ⟨h1.trans hx.1, h2.trans hx.2⟩

theorem busy_scan_found (st : SchedState) (L : List Nat) (p : Nat × Bool) :
    ((L.foldl (busy_scan_step st) p).2 = true ↔
      p.2 = true ∨ ∃ sid ∈ L, 0 < st.stop sid ∧ st.stop sid < ULONG_MAX) := by
  induction L generalizing p with
  | nil =>
    simp
  | cons a L ih =>
    rw [List.foldl_cons, ih]
    unfold busy_scan_step
    dsimp only
    by_cases h : 0 < st.stop a ∧ st.stop a < ULONG_MAX
    · rw [if_pos h]
      constructor
      · intro _
        exact Or.inr ⟨a, List.mem_cons_self _ _, h⟩
      · intro _
        exact Or.inl rfl
    · rw [if_neg h]
      constructor
      · rintro (hp | ⟨s, hs, hcond⟩)
        · exact Or.inl hp
        · exact Or.inr ⟨s, List.mem_cons_of_mem _ hs, hcond⟩
      · rintro (hp | ⟨s, hs, hcond⟩)
        · exact Or.inl hp
        · rcases List.mem_cons.mp hs with rfl | hs'
          · exact absurd hcond h
          · exact Or.inr ⟨s, hs', hcond⟩

theorem recompute_busy_spec (st : SchedState) (hb : st.programBusy = true) :
    ((recompute_busy st).programBusy = true ↔
      ∃ sid ∈ List.range (8 * st.nboards), 0 < st.stop sid ∧ st.stop sid < ULONG_MAX) ∧
    (recompute_busy st).stop = st.stop ∧
    ((recompute_busy st).programBusy = false → ∀ j, (recompute_busy st).bits j = false) := by
  unfold recompute_busy
  dsimp only
  by_cases hf : ((List.range (8 * st.nboards)).foldl (busy_scan_step st) (0, false)).2 = false
  · rw [if_pos hf]
    refine ⟨?_, rfl, fun _ j => rfl⟩
    constructor
    · intro hcontra
      exact absurd hcontra (by simp)
    · rintro ⟨sid, hmem, hcond⟩
      exact absurd
        ((busy_scan_found st (List.range (8 * st.nboards)) (0, false)).2
          (Or.inr ⟨sid, hmem, hcond⟩))
        (fun hc => Bool.false_ne_true (hf.symm.trans hc))
  · rw [if_neg hf]
    have hft : ((List.range (8 * st.nboards)).foldl (busy_scan_step st) (0, false)).2 = true := by
      cases hv : ((List.range (8 * st.nboards)).foldl (busy_scan_step st) (0, false)).2
      · exact absurd hv hf
      · rfl
    refine ⟨?_, rfl, ?_⟩
    · constructor
      · intro _
        rcases (busy_scan_found st (List.range (8 * st.nboards)) (0, false)).1 hft with hp | hex
        · exact absurd hp (by decide)
        · exact hex
      · intro _
        exact hb
    · intro hcontra
      exact absurd (hb.symm.trans hcontra) (by decide)

/-- C2 counterexample: running the busy block at `curr_time = 10` on
`c2state` turns station 1 off, which retracts the master's (station 0's)
stop time to `10 + 55 − 60 = 5` — a non-zero, non-sentinel stop time lying
in the past.  The recomputation then leaves `program_busy = 1` although no
station has a stop time in the future, refuting the claimed "still in the
future" part of the biconditional. -/
theorem tick_busy_stale_stop_cex :
    (run_sched_tick c2state 10).programBusy = true ∧
    (run_sched_tick c2state 10).stop 0 = 5 ∧
    ∀ sid < 8 * c2state.nboards,
      ¬(0 < (run_sched_tick c2state 10).stop sid ∧
        (run_sched_tick c2state 10).stop sid < ULONG_MAX ∧
        10 < (run_sched_tick c2state 10).stop sid) := by
  decide

/-- C2 (amended): at the end of the busy block, `program_busy` is true iff
at least one station has a non-zero stop time below the `ULONG_MAX`
sentinel — the code does not require the stop time to be in the future —
and when `program_busy` comes out false every station output bit has been
cleared. -/
theorem tick_busy_iff_pending (st : SchedState) (curr : Nat) (hb : st.programBusy = true) :
    ((run_sched_tick st curr).programBusy = true ↔
      ∃ sid ∈ List.range (8 * st.nboards),
        0 < (run_sched_tick st curr).stop sid ∧
        (run_sched_tick st curr).stop sid < ULONG_MAX) ∧
    ((run_sched_tick st curr).programBusy = false →
      ∀ j, (run_sched_tick st curr).bits j = false) := by
  have htick : run_sched_tick st curr =
      recompute_busy (process_dynamic_events (run_busy_pass st curr) curr) := by
    unfold run_sched_tick
    rw [if_pos hb]
  set st2 := process_dynamic_events (run_busy_pass st curr) curr with hst2
  have hb2 : st2.programBusy = true := by
    rw [hst2, (process_dynamic_events_busy (run_busy_pass st curr) curr).1,
      (run_busy_pass_busy st curr).1]
    exact hb
  have hn2 : st2.nboards = st.nboards := by
    rw [hst2, (process_dynamic_events_busy (run_busy_pass st curr) curr).2,
      (run_busy_pass_busy st curr).2]
  obtain ⟨hiff, hstop, hclear⟩ := recompute_busy_spec st2 hb2
  rw [htick]
  constructor
  · rw [hstop, ← hn2]
    exact hiff
  · exact hclear

/-- C2 witness: the amended busy-recomputation theorem applied to `c2wstate`
at `curr = 30`. -/
theorem tick_busy_iff_pending_instance :
    c2wstate.programBusy = true ∧
    (((run_sched_tick c2wstate 30).programBusy = true ↔
      ∃ sid ∈ List.range (8 * c2wstate.nboards),
        0 < (run_sched_tick c2wstate 30).stop sid ∧
        (run_sched_tick c2wstate 30).stop sid < ULONG_MAX) ∧
     ((run_sched_tick c2wstate 30).programBusy = false →
       ∀ j, (run_sched_tick c2wstate 30).bits j = false)) :=
  ⟨rfl, tick_busy_iff_pending c2wstate 30 rfl⟩

end OpenSprinkler
